import Mathlib

/-!
Verification development for the zentro backend booking subsystem.

The JavaScript source (Express routes over Mongoose models) is shallowly
embedded: each Mongoose document becomes a Lean structure, the database
becomes an explicit `St` state record, each route handler becomes a pure
function `St → … → Except Err St`, and the Mongoose `pre('save')` hooks
become functions applied by the `save…` wrappers, in the order the schema
registers them.  Times of day are kept as the `"HH:MM"` strings the code
stores, compared lexicographically exactly as MongoDB compares them.
-/

namespace Zentro

/-- Booking status enum from `bookingSchema`:
`['pending', 'confirmed', 'completed', 'cancelled', 'no-show']`. -/
inductive BStatus where
  | pending
  | confirmed
  | completed
  | cancelled
  | noShow
deriving Repr, DecidableEq

/-- `cancelledBy` enum from `bookingSchema`: `['client', 'consultant', 'admin']`. -/
inductive Canceller where
  | byClient
  | byConsultant
  | byAdmin
deriving Repr, DecidableEq

/-- One Booking document (fields the claims touch).  `origStatus` mirrors
`this._original?.status` as read by the booking-counts pre-save hook; no code
in the repository ever assigns `_original`, so documents loaded from the
store always carry `none` here. -/
structure Booking where
  bid : Nat
  client : Nat
  consultant : Nat
  category : Nat
  date : Nat
  duration : Nat
  startTime : String
  endTime : String
  status : BStatus := .pending
  notesClient : Option String := none
  notesConsultant : Option String := none
  cancellationReason : Option String := none
  cancelledBy : Option Canceller := none
  cancelledAt : Option Nat := none
  completedAt : Option Nat := none
  ratingScore : Option Nat := none
  ratingReview : Option String := none
  ratingCreatedAt : Option Nat := none
  origStatus : Option BStatus := none
deriving Repr, DecidableEq

/-- One Consultant document (fields the claims touch).  `ratingAverage` is a
rational because the code stores `totalRating / allRatings.length`.
`origCategories` mirrors `this._original?.categories` as read by the
category-count pre-save hook; no code in the repository ever assigns
`_original`, so documents loaded from the store always carry `none`. -/
structure Consultant where
  cid : Nat
  userId : Nat
  categories : List Nat
  ratingAverage : ℚ := 0
  ratingCount : Nat := 0
  totalBookings : Nat := 0
  completedBookings : Nat := 0
  origCategories : Option (List Nat) := none
deriving Repr, DecidableEq

/-- One Category document (fields the claims touch).  `consultantCount` is an
`Int` because Mongo `$inc: -1` can drive it below zero. -/
structure Category where
  catId : Nat
  name : String
  description : String := ""
  icon : String := ""
  color : String := "#4B8843"
  isActive : Bool := true
  sortOrder : Nat := 0
  consultantCount : Int := 0
  bookingCount : Nat := 0
deriving Repr, DecidableEq

/-- The document store: the three collections the claims touch. -/
structure St where
  bookings : List Booking
  consultants : List Consultant
  categories : List Category
deriving Repr, DecidableEq

/-- `Booking.findById` on the embedded store. -/
def findBooking (s : St) (id : Nat) : Option Booking :=
  s.bookings.find? (fun b => b.bid == id)

/-- `Consultant.findById` on the embedded store. -/
def findConsultant (s : St) (id : Nat) : Option Consultant :=
  s.consultants.find? (fun c => c.cid == id)

/-- `Consultant.findOne({ user: userId })` on the embedded store. -/
def findConsultantByUser (s : St) (userId : Nat) : Option Consultant :=
  s.consultants.find? (fun c => c.userId == userId)

/-- `Category.findById` on the embedded store. -/
def findCategory (s : St) (id : Nat) : Option Category :=
  s.categories.find? (fun c => c.catId == id)

/-- Replace every element whose key matches the key of `b` (the write-back of
a `.save()` on a loaded document). -/
def replaceBy {α : Type} (key : α → Nat) (b : α) (l : List α) : List α :=
  l.map (fun x => if key x == key b then b else x)

/-- Persist an updated Booking document. -/
def setBooking (s : St) (b : Booking) : St :=
  { s with bookings := replaceBy Booking.bid b s.bookings }

/-- Persist an updated Consultant document. -/
def setConsultant (s : St) (c : Consultant) : St :=
  { s with consultants := replaceBy Consultant.cid c s.consultants }

/-! ### Times of day

The code stores times as `"HH:MM"` strings (route regex
`^([01]?[0-9]|2[0-3]):[0-5][0-9]$`, one-digit hours admitted) and the
end-time hook round-trips them through a JS `Date`:
`new Date("2000-01-01T" + startTime + ":00")`, add `duration * 60000` ms,
then `toTimeString().slice(0, 5)` — i.e. minute arithmetic modulo one day,
re-rendered with two-digit fields. -/

/-- Numeric value of a decimal digit character. -/
def digitVal (c : Char) : Option Nat :=
  if c.isDigit then some (c.toNat - 48) else none

/-- Decimal digit character of a value `< 10`. -/
def digitChar (n : Nat) : Char :=
  Char.ofNat (48 + n)

/-- Parse `"HH:MM"` (or `"H:MM"`) to minutes since midnight. -/
def parseHHMM (t : String) : Option Nat :=
  match t.data with
  | [h1, h2, c, m1, m2] =>
    if c = ':' then
      match digitVal h1, digitVal h2, digitVal m1, digitVal m2 with
      | some a, some b, some x, some y =>
        if a * 10 + b < 24 ∧ x * 10 + y < 60 then
          some ((a * 10 + b) * 60 + (x * 10 + y))
        else none
      | _, _, _, _ => none
    else none
  | [h1, c, m1, m2] =>
    if c = ':' then
      match digitVal h1, digitVal m1, digitVal m2 with
      | some a, some x, some y =>
        if x * 10 + y < 60 then some (a * 60 + (x * 10 + y)) else none
      | _, _, _ => none
    else none
  | _ => none

/-- Render minutes since midnight as the two-digit `"HH:MM"` that
`Date.prototype.toTimeString().slice(0, 5)` produces. -/
def fmtHHMM (n : Nat) : String :=
  let h := n / 60 % 24
  let m := n % 60
  String.mk [digitChar (h / 10), digitChar (h % 10), ':',
             digitChar (m / 10), digitChar (m % 10)]

/-- First pre-save hook of `bookingSchema`: when `startTime` or `duration`
is modified, recompute `endTime` as start plus duration minutes of
wall-clock addition (silently rolling over past midnight).  The
parse-failure branch is unreachable behind the route regex and leaves the
document unchanged. -/
def endTimeHook (startModified durModified : Bool) (b : Booking) : Booking :=
  if startModified || durModified then
    match parseHHMM b.startTime with
    | some s => { b with endTime := fmtHHMM ((s + b.duration) % 1440) }
    | none => b
  else b

/-- `bookingSchema.statics.checkConflict(consultantId, date, startTime,
endTime, excludeBookingId)`: `findOne` over bookings of the consultant on
the date whose status is not `cancelled`/`no-show` and whose stored
`startTime < endTime && endTime > startTime` under MongoDB's lexicographic
string comparison. -/
def checkConflict (s : St) (consultantId : Nat) (date : Nat)
    (startTime endTime : String) (excludeBookingId : Option Nat := none) :
    Option Booking :=
  s.bookings.find? (fun b =>
    b.consultant == consultantId && b.date == date &&
    b.status != BStatus.cancelled && b.status != BStatus.noShow &&
    decide (b.startTime < endTime) && decide (b.endTime > startTime) &&
    (match excludeBookingId with
     | some e => b.bid != e
     | none => true))

/-- `Consultant.findByIdAndUpdate(id, { $inc: { completedBookings: 1 } })`. -/
def incCompleted (s : St) (cid : Nat) : St :=
  { s with consultants := s.consultants.map (fun c =>
      if c.cid == cid then { c with completedBookings := c.completedBookings + 1 } else c) }

/-- `Consultant.findByIdAndUpdate(id, { $inc: { totalBookings: 1 } })`. -/
def incTotal (s : St) (cid : Nat) : St :=
  { s with consultants := s.consultants.map (fun c =>
      if c.cid == cid then { c with totalBookings := c.totalBookings + 1 } else c) }

/-- Second pre-save hook of `bookingSchema` ("update consultant booking
counts"): when `status` is modified, increment the consultant's
`completedBookings` only if the new status is `completed` AND
`this._original` is truthy AND `this._original.status !== 'completed'`;
when the document is new, increment the consultant's `totalBookings`. -/
def bookingCountsHook (statusModified isNew : Bool) (b : Booking) (s : St) : St :=
  let s1 :=
    if statusModified && b.status == BStatus.completed &&
       (match b.origStatus with
        | some st => st != BStatus.completed
        | none => false) then
      incCompleted s b.consultant
    else s
  if isNew then incTotal s1 b.consultant else s1

/-- `booking.save()`: run the two pre-save hooks in registration order, then
persist (append when the document is new, write back otherwise). -/
def saveBooking (s : St) (b : Booking)
    (startModified durModified statusModified isNew : Bool) : St :=
  let b' := endTimeHook startModified durModified b
  let s' := bookingCountsHook statusModified isNew b' s
  if isNew then { s' with bookings := s'.bookings ++ [b'] }
  else setBooking s' b'

/-- `Category.updateMany({ _id: { $in: ids } }, { $inc: { consultantCount: d } })`. -/
def bumpCategoryCounts (s : St) (ids : List Nat) (d : Int) : St :=
  { s with categories := s.categories.map (fun c =>
      if ids.contains c.catId then { c with consultantCount := c.consultantCount + d } else c) }

/-- Pre-save hook of `consultantSchema` ("update category consultant
counts"): when `categories` is modified, decrement the count of every
category in `this._original.categories` (only if `_original` is truthy —
it never is in this codebase) and increment the count of every category
currently in `this.categories`. -/
def consultantCategoriesHook (categoriesModified : Bool) (c : Consultant) (s : St) : St :=
  if categoriesModified then
    let s1 :=
      match c.origCategories with
      | some old => bumpCategoryCounts s old (-1)
      | none => s
    if c.categories.length > 0 then bumpCategoryCounts s1 c.categories 1 else s1
  else s

/-- `consultant.save()`: run the category-count pre-save hook, then persist. -/
def saveConsultant (s : St) (c : Consultant) (categoriesModified isNew : Bool) : St :=
  let s' := consultantCategoriesHook categoriesModified c s
  if isNew then { s' with consultants := s'.consultants ++ [c] }
  else setConsultant s' c

/-- Pre-save hook of `categorySchema`:
`this.name = this.name.charAt(0).toUpperCase() + this.name.slice(1).toLowerCase()`. -/
def normalizeCategoryName (s : String) : String :=
  match s.data with
  | [] => ""
  | c :: rest => String.mk (c.toUpper :: rest.map Char.toLower)

/-- JS `toLowerCase()`-based case folding, as performed by the
case-insensitive duplicate-name regex `new RegExp('^' + name + '$', 'i')`. -/
def foldCase (s : String) : String :=
  String.mk (s.data.map Char.toLower)

/-- The express-validator `optional().isLength({ max: limit })` check on a
request field: flags only a supplied over-long value. -/
def lenGuard (limit : Nat) : Option String → Bool
  | some t => decide (t.length > limit)
  | none => false

/-- Error outcomes of the embedded handlers, one constructor per distinct
early-return of the routes: `notFound` is the 404 response, `accessDenied`
the 403, `validationErr` the 400 emitted by the express-validator layer,
`invalidState` the 400 "Booking cannot be cancelled in its current status",
`notCompleted` the 400 "Can only rate completed bookings", `alreadyRated`
the 400 "Booking has already been rated", `duplicateName` the 400 "Category
with this name already exists", `duplicateProfile` the 400 "Consultant
profile already exists". -/
inductive Err where
  | notFound
  | accessDenied
  | validationErr
  | invalidState
  | notCompleted
  | alreadyRated
  | duplicateName
  | duplicateProfile
deriving Repr, DecidableEq

/-- Target statuses accepted by the status-update route's validator:
`body('status').isIn(['confirmed', 'completed', 'cancelled', 'no-show'])`. -/
inductive StatusReq where
  | confirmed
  | completed
  | cancelled
  | noShow
deriving Repr, DecidableEq

/-- The booking status a `StatusReq` writes. -/
def StatusReq.toStatus : StatusReq → BStatus
  | .confirmed => .confirmed
  | .completed => .completed
  | .cancelled => .cancelled
  | .noShow => .noShow

/-- `PUT /api/bookings/:id/status` handler (caller is an authenticated
consultant-role user `userId`; `now` is the current clock reading).
Mirrors the route body: validate, load the booking (404), load the
caller's consultant profile and check ownership (403), assign the
requested status unconditionally, store non-empty consultant notes, stamp
`completedAt` / `cancelledAt` + `cancelledBy`, then `save()`. -/
def updateBookingStatus (s : St) (userId bookingId : Nat) (req : StatusReq)
    (notes : Option String) (now : Nat) : Except Err St :=
  if lenGuard 500 notes then .error .validationErr
  else
    match findBooking s bookingId with
    | none => .error .notFound
    | some b =>
      match findConsultantByUser s userId with
      | none => .error .accessDenied
      | some c =>
        if b.consultant ≠ c.cid then .error .accessDenied
        else
          let b1 := { b with status := req.toStatus }
          let b2 :=
            match notes with
            | some n => if n ≠ "" then { b1 with notesConsultant := some n } else b1
            | none => b1
          let b3 := if req = .completed then { b2 with completedAt := some now } else b2
          let b4 :=
            if req = .cancelled then
              { b3 with cancelledAt := some now, cancelledBy := some .byConsultant }
            else b3
          .ok (saveBooking s b4 false false (req.toStatus != b.status) false)

/-- `POST /api/bookings/:id/cancel` handler (caller is an authenticated
client-role user `userId`).  Mirrors the route body: validate the optional
reason (≤ 200 chars), load the booking (404), ownership (403), allow only
`pending`/`confirmed` (400), then set `cancelled`, stamp `cancelledAt`,
`cancelledBy = 'client'`, store a truthy reason, and `save()`. -/
def cancelBooking (s : St) (userId bookingId : Nat) (reason : Option String)
    (now : Nat) : Except Err St :=
  if lenGuard 200 reason then .error .validationErr
  else
    match findBooking s bookingId with
    | none => .error .notFound
    | some b =>
      if b.client ≠ userId then .error .accessDenied
      else if b.status ≠ BStatus.pending ∧ b.status ≠ BStatus.confirmed then
        .error .invalidState
      else
        let b1 := { b with status := BStatus.cancelled,
                           cancelledAt := some now,
                           cancelledBy := some Canceller.byClient }
        let b2 :=
          match reason with
          | some r => if r ≠ "" then { b1 with cancellationReason := some r } else b1
          | none => b1
        .ok (saveBooking s b2 false false true false)

/-- The consultant's bookings carrying a `rating.score`
(`Booking.find({ consultant, 'rating.score': { $exists: true } })`). -/
def ratedBookings (s : St) (cid : Nat) : List Booking :=
  s.bookings.filter (fun x => x.consultant == cid && x.ratingScore.isSome)

/-- Sum of the stored scores of a list of bookings, as the rational the JS
`reduce((sum, b) => sum + b.rating.score, 0)` accumulates. -/
def sumScores (l : List Booking) : ℚ :=
  (l.map (fun x => ((x.ratingScore.getD 0 : Nat) : ℚ))).sum

/-- `POST /api/bookings/:id/rate` handler (caller is an authenticated
client-role user `userId`).  Mirrors the route body: validate score
(integer 1–5) and optional review (≤ 1000 chars), load the booking (404),
ownership (403), require `completed` (400), require no prior
`rating.score` (400), write the rating and `save()`, then recompute the
owning consultant's aggregate over ALL its rated bookings in the updated
store: `average = totalRating / allRatings.length`,
`count = allRatings.length`. -/
def rateBooking (s : St) (userId bookingId : Nat) (score : Nat)
    (review : Option String) (now : Nat) : Except Err St :=
  if score < 1 ∨ 5 < score then .error .validationErr
  else if lenGuard 1000 review then .error .validationErr
  else
    match findBooking s bookingId with
    | none => .error .notFound
    | some b =>
      if b.client ≠ userId then .error .accessDenied
      else if b.status ≠ BStatus.completed then .error .notCompleted
      else if b.ratingScore.isSome then .error .alreadyRated
      else
        let b1 := { b with ratingScore := some score,
                           ratingReview := review,
                           ratingCreatedAt := some now }
        let s1 := saveBooking s b1 false false false false
        match findConsultant s1 b.consultant with
        | none => .ok s1
        | some c =>
          let rated := ratedBookings s1 b.consultant
          let c' := { c with ratingAverage := sumScores rated / (rated.length : ℚ),
                             ratingCount := rated.length }
          .ok (setConsultant s1 c')

/-- `POST /api/categories` handler (caller is an authenticated admin).
Mirrors the route body: validate the trimmed name length (2–100), reject a
case-insensitive duplicate name with 400, then construct the document and
`save()` (which runs the name-normalization hook). -/
def createCategory (s : St) (newId : Nat) (name description icon color : String)
    (sortOrder : Nat) : Except Err St :=
  if name.length < 2 ∨ 100 < name.length then .error .validationErr
  else if (s.categories.any (fun c => foldCase c.name == foldCase name)) then
    .error .duplicateName
  else
    let cat : Category := { catId := newId, name := normalizeCategoryName name,
                            description := description, icon := icon,
                            color := color, sortOrder := sortOrder }
    .ok { s with categories := s.categories ++ [cat] }

/-- `POST /api/consultants` handler, restricted to the fields the claims
touch (caller is an authenticated consultant-role user `userId`).  Mirrors
the route body: one profile per user (400), at least one category
(validator 400), then construct and `save()` (a fresh document's assigned
`categories` path is modified, so the category-count hook runs). -/
def createConsultantProfile (s : St) (newId userId : Nat) (cats : List Nat) :
    Except Err St :=
  if cats.isEmpty then .error .validationErr
  else
    match findConsultantByUser s userId with
    | some _ => .error .duplicateProfile
    | none =>
      .ok (saveConsultant s { cid := newId, userId := userId, categories := cats } true true)

/-- `PUT /api/consultants/:id` handler, restricted to a categories-only
patch (caller `userId` is the profile owner or an admin; `isAdmin` carries
the role check).  Mirrors the route body: validator (non-empty array),
load (404), ownership (403), assign `categories` (marking the path
modified) and `save()`. -/
def updateConsultantCategories (s : St) (userId : Nat) (isAdmin : Bool)
    (consultantId : Nat) (cats : List Nat) : Except Err St :=
  if cats.isEmpty then .error .validationErr
  else
    match findConsultant s consultantId with
    | none => .error .notFound
    | some c =>
      if ¬ isAdmin ∧ c.userId ≠ userId then .error .accessDenied
      else .ok (saveConsultant s { c with categories := cats } true false)

/-- Number of consultants currently referencing a category
(the spec's source-of-truth count for `consultantCount`). -/
def referencingConsultants (s : St) (catId : Nat) : Nat :=
  (s.consultants.filter (fun c => c.categories.contains catId)).length

/-- The state carried by a successful handler result. -/
def okSt : Except Err St → Option St
  | .ok s => some s
  | .error _ => none

/-- Split a character list at spaces (helper for `titleCase`). -/
def wordsAux : List Char → List Char → List (List Char)
  | [], acc => [acc.reverse]
  | c :: rest, acc =>
    if c = ' ' then acc.reverse :: wordsAux rest []
    else wordsAux rest (c :: acc)

/-- Join words back with single spaces (helper for `titleCase`). -/
def joinWords : List (List Char) → List Char
  | [] => []
  | [w] => w
  | w :: ws => w ++ ' ' :: joinWords ws

/-- Uppercase the first letter of a word and lowercase the rest. -/
def capWord : List Char → List Char
  | [] => []
  | c :: r => c.toUpper :: r.map Char.toLower

/-- The spec's words, for comparison with `normalizeCategoryName`:
Title Case uppercases the first letter of every space-separated word and
lowercases the rest of each word.  Modelled from the spec: the source has
no Title-Case routine, only the first-character normalization hook. -/
def titleCase (s : String) : String :=
  String.mk (joinWords ((wordsAux s.data []).map capWord))

/-! ### Example documents, used by counterexamples and witnesses -/

/-- A one-booking store: booking 0 (client user 0, consultant document 0
owned by user 1, 09:00–10:00) in the given status, one consultant, no
categories. -/
def exBooking (st : BStatus) : Booking :=
  { bid := 0, client := 0, consultant := 0, category := 0, date := 0,
    duration := 60, startTime := "09:00", endTime := "10:00", status := st }

/-- The consultant owning `exBooking`, with empty aggregates. -/
def exConsultant : Consultant :=
  { cid := 0, userId := 1, categories := [0] }

/-- Store holding exactly `exBooking st` and `exConsultant`. -/
def exSt (st : BStatus) : St :=
  { bookings := [exBooking st], consultants := [exConsultant], categories := [] }

/-- Two empty categories (ids 0 and 1) and nothing else. -/
def exCatSt : St :=
  { bookings := [], consultants := [],
    categories := [{ catId := 0, name := "A" }, { catId := 1, name := "B" }] }

/-! ### Helper lemmas -/

lemma find?_replaceBy {α : Type} (key : α → Nat) (l : List α) (i : Nat) (a b : α)
    (h : l.find? (fun x => key x == i) = some a) (hb : key b = i) :
    (replaceBy key b l).find? (fun x => key x == i) = some b := by
  induction l with
  | nil => simp [List.find?] at h
  | cons hd tl ih =>
    by_cases hk : key hd = i
    · have he : key hd = key b := by rw [hk, hb]
      have hstep : replaceBy key b (hd :: tl) = b :: replaceBy key b tl := by
        simp [replaceBy, he]
      rw [hstep]
      exact List.find?_cons_of_pos _ (by simp [hb])
    · have he : ¬ key hd = key b := by rw [hb]; exact hk
      have hstep : replaceBy key b (hd :: tl) = hd :: replaceBy key b tl := by
        simp [replaceBy, he]
      have hx : (key hd == i) = false := by simp [hk]
      rw [hstep]
      simp only [List.find?, hx] at h ⊢
      exact ih h

lemma bookingCountsHook_bookings (sm nw : Bool) (b : Booking) (s : St) :
    (bookingCountsHook sm nw b s).bookings = s.bookings := by
  unfold bookingCountsHook incCompleted incTotal
  split <;> split <;> rfl

lemma endTimeHook_id (b : Booking) : endTimeHook false false b = b := rfl

lemma bookingCountsHook_id (nw : Bool) (b : Booking) (s : St) :
    bookingCountsHook false nw b s = if nw then incTotal s b.consultant else s := rfl

lemma setBooking_bookings (s : St) (b : Booking) :
    (setBooking s b).bookings = replaceBy Booking.bid b s.bookings := rfl

lemma setConsultant_bookings (s : St) (c : Consultant) :
    (setConsultant s c).bookings = s.bookings := rfl

/-- `save()` on a loaded (non-new) booking whose times are untouched leaves
the booking collection equal to a keyed write-back of the document. -/
lemma saveBooking_bookings (s : St) (b : Booking) (sm : Bool) :
    (saveBooking s b false false sm false).bookings =
      replaceBy Booking.bid b s.bookings := by
  unfold saveBooking
  rw [endTimeHook_id]
  simp only [Bool.false_eq_true, if_false]
  rw [setBooking_bookings, bookingCountsHook_bookings]

lemma digitVal_digitChar : ∀ d < 10, digitVal (digitChar d) = some d := by decide

lemma parse_fmt_hm (h m : Nat) (hh : h < 24) (hm : m < 60) :
    parseHHMM (String.mk [digitChar (h / 10), digitChar (h % 10), ':',
                          digitChar (m / 10), digitChar (m % 10)]) = some (h * 60 + m) := by
  have d1 := digitVal_digitChar (h / 10) (by omega)
  have d2 := digitVal_digitChar (h % 10) (by omega)
  have d3 := digitVal_digitChar (m / 10) (by omega)
  have d4 := digitVal_digitChar (m % 10) (by omega)
  have e1 : h / 10 * 10 + h % 10 = h := by omega
  have e2 : m / 10 * 10 + m % 10 = m := by omega
  simp [parseHHMM, d1, d2, d3, d4, e1, e2, hh, hm]

/-- Rendering a minutes-of-day value and parsing it back is the identity. -/
lemma parse_fmt (n : Nat) (hn : n < 1440) : parseHHMM (fmtHHMM n) = some n := by
  have h60 : n / 60 < 24 := by omega
  have e1 : n / 60 % 24 = n / 60 := Nat.mod_eq_of_lt h60
  have hm : n % 60 < 60 := Nat.mod_lt _ (by omega)
  have e2 : n / 60 * 60 + n % 60 = n := by omega
  unfold fmtHHMM
  simp only [e1]
  rw [parse_fmt_hm (n / 60) (n % 60) h60 hm, e2]

/-! ### Claims -/

/-- C7: `checkConflict(consultantId, date, startTime, endTime)` reports a
conflict iff some booking of the same consultant on the same date, whose
status is neither `cancelled` nor `no-show`, has
`existing.startTime < new.endTime` and `existing.endTime > new.startTime`
(half-open interval overlap under the stored string order). -/
theorem C7_checkConflict_iff_overlap (s : St) (cid d : Nat) (st et : String) :
    (checkConflict s cid d st et none).isSome ↔
      ∃ b ∈ s.bookings, b.consultant = cid ∧ b.date = d ∧
        b.status ≠ BStatus.cancelled ∧ b.status ≠ BStatus.noShow ∧
        b.startTime < et ∧ b.endTime > st := by
  unfold checkConflict
  rw [List.find?_isSome]
  simp [Bool.and_eq_true, beq_iff_eq, bne_iff_ne, decide_eq_true_eq, gt_iff_lt, and_assoc]

/-- C8: on a booking write that changes `startTime` or `duration`, the
pre-save hook recomputes `endTime` as `startTime` plus `duration` minutes
of wall-clock addition (modulo one day, with no day-rollover handling past
midnight), so that whenever the sum stays within the day the stored
`endTime` minus `startTime` equals `duration` minutes. -/
theorem C8_endTime_eq_start_plus_duration (b : Booking) (sm dm : Bool) (smin : Nat)
    (hmod : sm = true ∨ dm = true)
    (hparse : parseHHMM b.startTime = some smin)
    (_hdur : 30 ≤ b.duration ∧ b.duration ≤ 480) :
    (endTimeHook sm dm b).endTime = fmtHHMM ((smin + b.duration) % 1440) ∧
    (endTimeHook sm dm b).startTime = b.startTime ∧
    (endTimeHook sm dm b).duration = b.duration ∧
    (smin + b.duration < 1440 →
       parseHHMM (endTimeHook sm dm b).endTime = some (smin + b.duration)) := by
  have hcond : (sm || dm) = true := by rcases hmod with h | h <;> simp [h]
  unfold endTimeHook
  rw [hcond]
  simp only [if_true, hparse]
  refine ⟨trivial, trivial, trivial, ?_⟩
  intro hlt
  have hm : (smin + b.duration) % 1440 = smin + b.duration := Nat.mod_eq_of_lt hlt
  simp only [hm]
  exact parse_fmt _ hlt

/-- A keyed write-back after a booking `save()` (times untouched) is found
under the booking's id. -/
lemma findBooking_saveBooking (s : St) (b b' : Booking) (sm : Bool) (bid : Nat)
    (hb : findBooking s bid = some b) (hb' : b'.bid = bid) :
    findBooking (saveBooking s b' false false sm false) bid = some b' := by
  unfold findBooking
  rw [saveBooking_bookings]
  exact find?_replaceBy Booking.bid s.bookings bid b b' hb hb'

/-- A keyed write-back of a consultant is found under the written key. -/
lemma findConsultant_setConsultant (s : St) (c c' : Consultant) (i : Nat)
    (h : findConsultant s i = some c) (hc' : c'.cid = i) :
    findConsultant (setConsultant s c') i = some c' :=
  find?_replaceBy Consultant.cid s.consultants i c c' h hc'

/-- Anatomy of a successful rate request: the guards that must have held on
the loaded booking, the shape of the booking collection afterwards, and the
recomputed aggregate stored on the owning consultant. -/
lemma rate_ok_spec (s : St) (uid bid score : Nat) (review : Option String) (now : Nat)
    (s' : St) (b : Booking)
    (h : rateBooking s uid bid score review now = .ok s')
    (hb : findBooking s bid = some b) :
    (1 ≤ score ∧ score ≤ 5) ∧ b.client = uid ∧ b.status = BStatus.completed ∧
    b.ratingScore = none ∧
    s'.bookings = replaceBy Booking.bid
      { b with ratingScore := some score, ratingReview := review,
               ratingCreatedAt := some now } s.bookings ∧
    (∀ c', findConsultant s' b.consultant = some c' →
       c'.ratingAverage =
         sumScores (ratedBookings s' b.consultant) / ((ratedBookings s' b.consultant).length : ℚ) ∧
       c'.ratingCount = (ratedBookings s' b.consultant).length) := by
  unfold rateBooking at h
  rw [hb] at h
  dsimp only at h
  split at h
  · exact absurd h (by simp)
  rename_i hsc
  split at h
  · exact absurd h (by simp)
  split at h
  · exact absurd h (by simp)
  rename_i hcl
  split at h
  · exact absurd h (by simp)
  rename_i hst
  split at h
  · exact absurd h (by simp)
  rename_i hrs
  split at h
  next hnone =>
    injection h with h'
    subst h'
    refine ⟨⟨by omega, by omega⟩, not_not.mp hcl, not_not.mp hst,
            Option.not_isSome_iff_eq_none.mp hrs, ?_, ?_⟩
    · rw [saveBooking_bookings]
    · intro c' hc'
      rw [hnone] at hc'
      cases hc'
  next c0 hc0 =>
    injection h with h'
    subst h'
    have hcid : c0.cid = b.consultant := by simpa using List.find?_some hc0
    refine ⟨⟨by omega, by omega⟩, not_not.mp hcl, not_not.mp hst,
            Option.not_isSome_iff_eq_none.mp hrs, ?_, ?_⟩
    · rw [setConsultant_bookings, saveBooking_bookings]
    · intro c' hc'
      rw [findConsultant_setConsultant _ c0 _ _ hc0 ?hcn] at hc'
      case hcn => exact hcid
      injection hc' with hc''
      subst hc''
      exact ⟨rfl, rfl⟩

/-- A list of bookings that each carry a score in 1–5 has its score sum
between `length` and `5 * length`. -/
lemma sumScores_bounds (l : List Booking)
    (h : ∀ x ∈ l, ∃ sc, x.ratingScore = some sc ∧ 1 ≤ sc ∧ sc ≤ 5) :
    (l.length : ℚ) ≤ sumScores l ∧ sumScores l ≤ 5 * l.length := by
  induction l with
  | nil => simp [sumScores]
  | cons hd tl ih =>
    obtain ⟨sc, hsc, h1, h5⟩ := h hd (List.mem_cons_self _ _)
    obtain ⟨ihl, ihr⟩ := ih (fun x hx => h x (List.mem_cons_of_mem _ hx))
    unfold sumScores at *
    simp only [List.map_cons, List.sum_cons, List.length_cons, hsc, Option.getD_some]
    have hc1 : (1 : ℚ) ≤ (sc : ℚ) := by exact_mod_cast h1
    have hc5 : (sc : ℚ) ≤ 5 := by exact_mod_cast h5
    constructor
    · push_cast
      linarith
    · push_cast
      linarith

/-- Anatomy of a successful client cancel: the guards that must have held on
the loaded booking and the stored cancellation fields afterwards. -/
lemma cancel_ok_spec (s : St) (uid bid : Nat) (reason : Option String) (now : Nat)
    (s' : St) (b : Booking)
    (h : cancelBooking s uid bid reason now = .ok s')
    (hb : findBooking s bid = some b) :
    b.client = uid ∧ (b.status = BStatus.pending ∨ b.status = BStatus.confirmed) ∧
    ∃ b', findBooking s' bid = some b' ∧
      b'.status = BStatus.cancelled ∧ b'.cancelledBy = some Canceller.byClient ∧
      b'.cancelledAt = some now ∧
      (∀ r, reason = some r → r ≠ "" → b'.cancellationReason = some r) ∧
      (reason = none → b'.cancellationReason = b.cancellationReason) := by
  have hbid : b.bid = bid := by simpa using List.find?_some hb
  unfold cancelBooking at h
  rw [hb] at h
  dsimp only at h
  split at h
  · exact absurd h (by simp)
  split at h
  · exact absurd h (by simp)
  rename_i hcl
  split at h
  · exact absurd h (by simp)
  rename_i hstat
  injection h with h'
  subst h'
  refine ⟨not_not.mp hcl, by tauto, ?_⟩
  cases reason with
  | none =>
    dsimp only
    refine ⟨_, findBooking_saveBooking s b _ _ bid hb hbid, rfl, rfl, rfl, ?_, ?_⟩
    · intro r hr
      cases hr
    · intro _
      rfl
  | some r =>
    dsimp only
    by_cases hre : r = ""
    · subst hre
      refine ⟨_, findBooking_saveBooking s b _ _ bid hb hbid, rfl, rfl, rfl, ?_, ?_⟩
      · intro r' hr' hne
        injection hr' with hr''
        exact absurd hr''.symm hne
      · intro hn
        cases hn
    · rw [if_pos hre]
      refine ⟨_, findBooking_saveBooking s b _ _ bid hb hbid, rfl, rfl, rfl, ?_, ?_⟩
      · intro r' hr' _
        injection hr' with hr''
        subst hr''
        rfl
      · intro hn
        cases hn

/-- C1 counterexample: the consultant status-update operation does move a
booking out of the terminal state `completed` — requesting `confirmed` on a
completed booking succeeds and stores `confirmed`. -/
theorem C1_terminal_state_not_preserved :
    (findBooking (exSt .completed) 0).map Booking.status = some BStatus.completed ∧
    (okSt (updateBookingStatus (exSt .completed) 1 0 .confirmed none 7)).map
        (fun s2 => (findBooking s2 0).map Booking.status) = some (some BStatus.confirmed) :=
  ⟨rfl, rfl⟩

/-- C1 (amended): the status-update operation checks only ownership, never
the current status: for any found booking whose consultant is the caller's
profile, the write succeeds and the stored status becomes exactly the
requested one, whatever state (terminal included) the booking was in. -/
theorem C1_status_update_overwrites_any_state (s : St) (uid bid : Nat)
    (req : StatusReq) (now : Nat) (b : Booking) (c : Consultant)
    (hb : findBooking s bid = some b)
    (hc : findConsultantByUser s uid = some c)
    (hown : b.consultant = c.cid) :
    ∃ s', updateBookingStatus s uid bid req none now = .ok s' ∧
      (findBooking s' bid).map Booking.status = some req.toStatus := by
  have hbid : b.bid = bid := by simpa using List.find?_some hb
  unfold updateBookingStatus
  rw [hb, hc]
  dsimp only
  rw [if_neg (by simp [lenGuard])]
  rw [if_neg (not_not_intro hown)]
  refine ⟨_, rfl, ?_⟩
  rw [findBooking_saveBooking s b _ _ bid hb ?hx]
  case hx => split <;> split <;> exact hbid
  dsimp only [Option.map]
  congr 1
  split <;> split <;> rfl

/-- C1 witness: applied to a completed booking with requested status
`confirmed`. -/
theorem C1_status_update_overwrites_any_state_witness :
    ∃ s', updateBookingStatus (exSt .completed) 1 0 .confirmed none 7 = .ok s' ∧
      (findBooking s' 0).map Booking.status = some (StatusReq.confirmed.toStatus) :=
  C1_status_update_overwrites_any_state (exSt .completed) 1 0 .confirmed 7
    (exBooking .completed) exConsultant rfl rfl rfl

/-- C2: completing a pending booking through the status-update operation
does NOT increment the owning consultant's `completedBookings` (it stays
0), although `completedAt` is stamped — the hook's increment is gated on
`this._original`, which no code ever assigns. -/
theorem C2_completedBookings_not_incremented_on_completion :
    (findConsultant (exSt .pending) 0).map Consultant.completedBookings = some 0 ∧
    (okSt (updateBookingStatus (exSt .pending) 1 0 .completed none 7)).map
        (fun s2 => ((findBooking s2 0).map Booking.status,
                    (findBooking s2 0).map Booking.completedAt,
                    (findConsultant s2 0).map Consultant.completedBookings)) =
      some (some BStatus.completed, some (some 7), some 0) :=
  ⟨rfl, rfl⟩

/-- C3: creating a consultant on category 0 puts `consultantCount 0 = 1`
(correct), but updating the profile to category 1 leaves category 0's count
at 1 while no consultant references it any more — removed categories are
never decremented because the hook's decrement is gated on
`this._original`, which no code ever assigns. -/
theorem C3_category_count_not_reconciled_on_update :
    (okSt (createConsultantProfile exCatSt 0 5 [0])).map
        (fun s1 => ((findCategory s1 0).map Category.consultantCount,
                    referencingConsultants s1 0)) = some (some 1, 1) ∧
    ((okSt (createConsultantProfile exCatSt 0 5 [0])).bind
        (fun s1 => okSt (updateConsultantCategories s1 5 false 0 [1]))).map
        (fun s2 => ((findCategory s2 0).map Category.consultantCount,
                    referencingConsultants s2 0,
                    (findCategory s2 1).map Category.consultantCount,
                    referencingConsultants s2 1)) =
      some (some 1, 0, some 1, 1) :=
  ⟨rfl, rfl⟩

/-- C4: after every successful rate, the owning consultant's stored
`rating.average` equals the sum of `rating.score` over all of that
consultant's rated bookings (in the post-write store) divided by their
number, and `rating.count` equals that number — a full recomputation over
the current set. -/
theorem C4_rating_recomputed_as_full_mean (s : St) (uid bid score : Nat)
    (review : Option String) (now : Nat) (s' : St) (b : Booking) (c' : Consultant)
    (h : rateBooking s uid bid score review now = .ok s')
    (hb : findBooking s bid = some b)
    (hc' : findConsultant s' b.consultant = some c') :
    c'.ratingAverage = sumScores (ratedBookings s' b.consultant) /
      ((ratedBookings s' b.consultant).length : ℚ) ∧
    c'.ratingCount = (ratedBookings s' b.consultant).length :=
  (rate_ok_spec s uid bid score review now s' b h hb).2.2.2.2.2 c' hc'

/-- C4 witness: rating the one completed booking of the example store. -/
theorem C4_rating_recomputed_as_full_mean_witness :
    ∃ s' c', rateBooking (exSt .completed) 0 0 4 none 9 = .ok s' ∧
      findConsultant s' (exBooking .completed).consultant = some c' ∧
      (c'.ratingAverage = sumScores (ratedBookings s' (exBooking .completed).consultant) /
         ((ratedBookings s' (exBooking .completed).consultant).length : ℚ) ∧
       c'.ratingCount = (ratedBookings s' (exBooking .completed).consultant).length) := by
  refine ⟨_, _, rfl, rfl, ?_⟩
  exact C4_rating_recomputed_as_full_mean (exSt .completed) 0 0 4 none 9 _
    (exBooking .completed) _ rfl rfl rfl

/-- C5: a valid rate request on a found booking succeeds iff the caller is
the owning client, the status is `completed`, and no `rating.score` is
stored; a non-owner gets `accessDenied` (403), a non-completed booking gets
`notCompleted` and a duplicate rating gets `alreadyRated` (the spec's
`Conflict` responses), in which case the handler returns before writing
anything; and a second rate call by the owner on the same booking always
returns `alreadyRated`. -/
theorem C5_rate_guards (s : St) (uid bid score : Nat) (review : Option String)
    (now : Nat) (b : Booking)
    (hscore : 1 ≤ score ∧ score ≤ 5)
    (hrev : ∀ r, review = some r → r.length ≤ 1000)
    (hb : findBooking s bid = some b) :
    ((∃ s', rateBooking s uid bid score review now = .ok s') ↔
       (b.client = uid ∧ b.status = BStatus.completed ∧ b.ratingScore = none))
    ∧ (b.client ≠ uid → rateBooking s uid bid score review now = .error .accessDenied)
    ∧ (b.client = uid → b.status ≠ BStatus.completed →
         rateBooking s uid bid score review now = .error .notCompleted)
    ∧ (b.client = uid → b.status = BStatus.completed → b.ratingScore ≠ none →
         rateBooking s uid bid score review now = .error .alreadyRated)
    ∧ (∀ s' score2, rateBooking s uid bid score review now = .ok s' →
         1 ≤ score2 → score2 ≤ 5 →
         rateBooking s' uid bid score2 review now = .error .alreadyRated) := by
  have hrevF : lenGuard 1000 review = false := by
    cases review with
    | none => rfl
    | some r =>
      simp only [lenGuard, decide_eq_false_iff_not, gt_iff_lt, not_lt]
      exact hrev r rfl
  refine ⟨⟨?_, ?_⟩, ?_, ?_, ?_, ?_⟩
  · rintro ⟨s', hok⟩
    obtain ⟨_, hcl, hst, hrs, _, _⟩ := rate_ok_spec s uid bid score review now s' b hok hb
    exact ⟨hcl, hst, hrs⟩
  · rintro ⟨hcl, hst, hrs⟩
    unfold rateBooking
    rw [hb]
    dsimp only
    rw [if_neg (by omega : ¬(score < 1 ∨ 5 < score))]
    rw [hrevF]
    rw [if_neg (by simp)]
    rw [if_neg (by simp [hcl])]
    rw [if_neg (by simp [hst])]
    rw [if_neg (by simp [hrs])]
    rcases hfc : findConsultant (saveBooking s { b with ratingScore := some score, ratingReview := review, ratingCreatedAt := some now } false false false false) b.consultant with _ | c0 <;>
      simp only [hfc] <;> exact ⟨_, rfl⟩
  · intro hne
    unfold rateBooking
    rw [hb]
    dsimp only
    rw [if_neg (by omega : ¬(score < 1 ∨ 5 < score))]
    rw [hrevF]
    rw [if_neg (by simp)]
    rw [if_pos hne]
  · intro hcl hst
    unfold rateBooking
    rw [hb]
    dsimp only
    rw [if_neg (by omega : ¬(score < 1 ∨ 5 < score))]
    rw [hrevF]
    rw [if_neg (by simp)]
    rw [if_neg (by simp [hcl])]
    rw [if_pos hst]
  · intro hcl hst hrs
    unfold rateBooking
    rw [hb]
    dsimp only
    rw [if_neg (by omega : ¬(score < 1 ∨ 5 < score))]
    rw [hrevF]
    rw [if_neg (by simp)]
    rw [if_neg (by simp [hcl])]
    rw [if_neg (by simp [hst])]
    rw [if_pos (by simp [Option.isSome_iff_ne_none, hrs])]
  · intro s' score2 hok h1 h5
    obtain ⟨_, hcl, hst, hrs, hbooks, _⟩ := rate_ok_spec s uid bid score review now s' b hok hb
    have hbid : b.bid = bid := by simpa using List.find?_some hb
    have hb' : findBooking s' bid = some ({ b with ratingScore := some score, ratingReview := review, ratingCreatedAt := some now } : Booking) := by
      unfold findBooking
      rw [hbooks]
      exact find?_replaceBy Booking.bid s.bookings bid b _ hb hbid
    unfold rateBooking
    rw [hb']
    dsimp only
    rw [if_neg (by omega : ¬(score2 < 1 ∨ 5 < score2))]
    rw [hrevF]
    rw [if_neg (by simp)]
    rw [if_neg (by simp [hcl])]
    rw [if_neg (by simp [hst])]
    rw [if_pos (by simp)]

/-- C5 witness: a non-owner rating a completed booking is rejected. -/
theorem C5_rate_guards_witness :
    rateBooking (exSt .completed) 2 0 4 none 9 = .error Err.accessDenied :=
  (C5_rate_guards (exSt .completed) 2 0 4 none 9 (exBooking .completed)
      (by decide) (fun r hr => nomatch hr) rfl).2.1 (by decide)

/-- C6: a client cancel with a valid reason succeeds iff the caller is the
owning client and the booking is `pending` or `confirmed`; from
`completed`, `cancelled` or `no-show` it returns `invalidState` before
writing anything; on success the stored booking is `cancelled` with
`cancelledBy = client`, `cancelledAt` stamped, and a supplied non-empty
reason (≤ 200 chars) stored as `cancellationReason`. -/
theorem C6_cancel_guards_and_effects (s : St) (uid bid : Nat)
    (reason : Option String) (now : Nat) (b : Booking)
    (hreason : ∀ r, reason = some r → r.length ≤ 200)
    (hb : findBooking s bid = some b) :
    ((∃ s', cancelBooking s uid bid reason now = .ok s') ↔
       (b.client = uid ∧ (b.status = BStatus.pending ∨ b.status = BStatus.confirmed)))
    ∧ (b.client ≠ uid → cancelBooking s uid bid reason now = .error .accessDenied)
    ∧ (b.client = uid → b.status ≠ BStatus.pending → b.status ≠ BStatus.confirmed →
         cancelBooking s uid bid reason now = .error .invalidState)
    ∧ (∀ s', cancelBooking s uid bid reason now = .ok s' →
         ∃ b', findBooking s' bid = some b' ∧
           b'.status = BStatus.cancelled ∧ b'.cancelledBy = some Canceller.byClient ∧
           b'.cancelledAt = some now ∧
           (∀ r, reason = some r → r ≠ "" → b'.cancellationReason = some r)) := by
  have hreasonF : lenGuard 200 reason = false := by
    cases reason with
    | none => rfl
    | some r =>
      simp only [lenGuard, decide_eq_false_iff_not, gt_iff_lt, not_lt]
      exact hreason r rfl
  refine ⟨⟨?_, ?_⟩, ?_, ?_, ?_⟩
  · rintro ⟨s', hok⟩
    obtain ⟨hcl, hstat, _⟩ := cancel_ok_spec s uid bid reason now s' b hok hb
    exact ⟨hcl, hstat⟩
  · rintro ⟨hcl, hstat⟩
    unfold cancelBooking
    rw [hb]
    dsimp only
    rw [hreasonF]
    rw [if_neg (by simp)]
    rw [if_neg (by simp [hcl])]
    rw [if_neg (by tauto)]
    exact ⟨_, rfl⟩
  · intro hne
    unfold cancelBooking
    rw [hb]
    dsimp only
    rw [hreasonF]
    rw [if_neg (by simp)]
    rw [if_pos hne]
  · intro hcl hp hc
    unfold cancelBooking
    rw [hb]
    dsimp only
    rw [hreasonF]
    rw [if_neg (by simp)]
    rw [if_neg (by simp [hcl])]
    rw [if_pos ⟨hp, hc⟩]
  · intro s' hok
    obtain ⟨_, _, b', hfind, h1, h2, h3, h4, _⟩ := cancel_ok_spec s uid bid reason now s' b hok hb
    exact ⟨b', hfind, h1, h2, h3, h4⟩

/-- C6 witness: cancelling a completed booking is rejected as an invalid
state. -/
theorem C6_cancel_guards_and_effects_witness :
    cancelBooking (exSt .completed) 0 0 none 7 = .error Err.invalidState :=
  (C6_cancel_guards_and_effects (exSt .completed) 0 0 none 7 (exBooking .completed)
      (fun r hr => nomatch hr) rfl).2.2.1 (by decide) (by decide) (by decide)

/-- C9 counterexample: the stored category name is NOT Title Case — the
hook only uppercases the first character of the whole string, so
"data science" is stored as "Data science", not "Data Science". -/
theorem C9_name_not_title_cased :
    (okSt (createCategory exCatSt 2 "data science" "a description" "icon" "#FFFFFF" 0)).map
        (fun s2 => (findCategory s2 2).map Category.name) = some (some "Data science") ∧
    titleCase "data science" = "Data Science" ∧
    ("Data science" : String) ≠ "Data Science" :=
  ⟨rfl, rfl, by decide⟩

/-- C9 (amended): creation fails with the duplicate-name error whenever a
category with a case-insensitively equal name exists; otherwise it appends
a category whose stored name is the submitted name with its first character
uppercased and the remainder lowercased (not full Title Case). -/
theorem C9_dup_rejected_name_first_char_normalized (s : St) (newId : Nat)
    (name description icon color : String) (sortOrder : Nat)
    (hlen : 2 ≤ name.length ∧ name.length ≤ 100) :
    ((∃ c ∈ s.categories, foldCase c.name = foldCase name) →
       createCategory s newId name description icon color sortOrder = .error .duplicateName)
    ∧ ((∀ c ∈ s.categories, foldCase c.name ≠ foldCase name) →
       createCategory s newId name description icon color sortOrder =
         .ok { s with categories := s.categories ++
           [{ catId := newId, name := normalizeCategoryName name, description := description,
              icon := icon, color := color, sortOrder := sortOrder }] }) := by
  constructor
  · rintro ⟨c, hc, hname⟩
    unfold createCategory
    rw [if_neg (by omega : ¬(name.length < 2 ∨ 100 < name.length))]
    rw [if_pos ?hany]
    case hany =>
      rw [List.any_eq_true]
      exact ⟨c, hc, by simp [hname]⟩
  · intro hnone
    unfold createCategory
    rw [if_neg (by omega : ¬(name.length < 2 ∨ 100 < name.length))]
    rw [if_neg ?hany]
    case hany =>
      rw [List.any_eq_true]
      rintro ⟨c, hc, hname⟩
      exact hnone c hc (by simpa using hname)

/-- C9 witness: creating "Design" in a store without that name. -/
theorem C9_dup_rejected_name_first_char_normalized_witness :
    createCategory exCatSt 2 "Design" "a description" "icon" "#FFFFFF" 0 =
      .ok { exCatSt with categories := exCatSt.categories ++
        [{ catId := 2, name := normalizeCategoryName "Design", description := "a description",
           icon := "icon", color := "#FFFFFF", sortOrder := 0 }] } :=
  (C9_dup_rejected_name_first_char_normalized exCatSt 2 "Design" "a description"
      "icon" "#FFFFFF" 0 (by decide)).2 (by decide)

/-- C10: in a store whose stored scores are all in 1–5 (the schema bounds),
every successful rate leaves the owning consultant with a non-empty rated
set — the divisor of the recomputation is non-zero — and a stored average
between 1 and 5. -/
theorem C10_average_defined_and_bounded (s : St) (uid bid score : Nat)
    (review : Option String) (now : Nat) (s' : St) (b : Booking) (c' : Consultant)
    (hall : ∀ x ∈ s.bookings, ∀ sc, x.ratingScore = some sc → 1 ≤ sc ∧ sc ≤ 5)
    (h : rateBooking s uid bid score review now = .ok s')
    (hb : findBooking s bid = some b)
    (hc' : findConsultant s' b.consultant = some c') :
    0 < (ratedBookings s' b.consultant).length ∧
    1 ≤ c'.ratingAverage ∧ c'.ratingAverage ≤ 5 := by
  obtain ⟨⟨h1, h5⟩, hcl, hst, hrs, hbooks, hagg⟩ :=
    rate_ok_spec s uid bid score review now s' b h hb
  obtain ⟨hav, hcount⟩ := hagg c' hc'
  have hall' : ∀ x ∈ s'.bookings, ∀ sc, x.ratingScore = some sc → 1 ≤ sc ∧ sc ≤ 5 := by
    rw [hbooks]
    intro x hx sc hsc
    unfold replaceBy at hx
    obtain ⟨y, hy, hxy⟩ := List.mem_map.mp hx
    by_cases hk : (y.bid == b.bid) = true
    · rw [if_pos hk] at hxy
      subst hxy
      simp only at hsc
      injection hsc with hsc'
      omega
    · rw [if_neg hk] at hxy
      subst hxy
      exact hall y hy sc hsc
  have hbmem : b ∈ s.bookings := List.mem_of_find?_eq_some hb
  have hrmem : ({ b with ratingScore := some score, ratingReview := review, ratingCreatedAt := some now } : Booking) ∈ ratedBookings s' b.consultant := by
    apply List.mem_filter.mpr
    constructor
    · rw [hbooks]
      unfold replaceBy
      exact List.mem_map.mpr ⟨b, hbmem, by simp⟩
    · simp
  have hlen : 0 < (ratedBookings s' b.consultant).length :=
    List.length_pos.mpr (List.ne_nil_of_mem hrmem)
  have hbound : ∀ x ∈ ratedBookings s' b.consultant,
      ∃ sc, x.ratingScore = some sc ∧ 1 ≤ sc ∧ sc ≤ 5 := by
    intro x hx
    obtain ⟨hmem', hpred⟩ := List.mem_filter.mp hx
    have hsome : x.ratingScore.isSome = true := by
      simp only [Bool.and_eq_true] at hpred
      exact hpred.2
    obtain ⟨sc, hsc⟩ := Option.isSome_iff_exists.mp hsome
    exact ⟨sc, hsc, hall' x hmem' sc hsc⟩
  obtain ⟨hsl, hsr⟩ := sumScores_bounds _ hbound
  have hq : (0 : ℚ) < ((ratedBookings s' b.consultant).length : ℚ) := by
    exact_mod_cast hlen
  refine ⟨hlen, ?_, ?_⟩
  · rw [hav, one_le_div hq]
    exact hsl
  · rw [hav]
    rw [div_le_iff₀ hq]
    linarith

/-- C10 witness: rating the one completed, unrated booking of the example
store. -/
theorem C10_average_defined_and_bounded_witness :
    ∃ s' c', rateBooking (exSt .completed) 0 0 4 none 9 = .ok s' ∧
      findConsultant s' (exBooking .completed).consultant = some c' ∧
      (0 < (ratedBookings s' (exBooking .completed).consultant).length ∧
       1 ≤ c'.ratingAverage ∧ c'.ratingAverage ≤ 5) := by
  refine ⟨_, _, rfl, rfl, ?_⟩
  exact C10_average_defined_and_bounded (exSt .completed) 0 0 4 none 9 _
    (exBooking .completed) _
    (fun x hx sc hsc => by
      simp only [exSt, exBooking, List.mem_singleton] at hx
      subst hx
      exact absurd hsc (by simp))
    rfl rfl rfl

/-- C8 witness: the hook on a 09:00 + 60-minute booking yields 10:00. -/
theorem C8_endTime_eq_start_plus_duration_witness :
    (endTimeHook true false (exBooking .pending)).endTime =
        fmtHHMM ((540 + (exBooking .pending).duration) % 1440) ∧
    (endTimeHook true false (exBooking .pending)).startTime =
        (exBooking .pending).startTime ∧
    (endTimeHook true false (exBooking .pending)).duration =
        (exBooking .pending).duration ∧
    (540 + (exBooking .pending).duration < 1440 →
       parseHHMM (endTimeHook true false (exBooking .pending)).endTime =
         some (540 + (exBooking .pending).duration)) :=
  C8_endTime_eq_start_plus_duration (exBooking .pending) true false 540
    (Or.inl rfl) (by decide) (by decide)

end Zentro
